import Mathlib

/-!
Shallow embedding of the face-recognition attendance backend
(`backend/attendence.py`) and verification of its specification claims.

The program is a Flask service built around five pieces of durable state
(label registry `labels.json`, face-sample corpus `dataset/`, trained
model `model_eigen.yml`, attendance ledger `attendance.csv`) and two
request flows (`register_face`, `recognize_face`).  External OpenCV
calls (the Haar-cascade detector, the EigenFace `predict`) are modelled
as function parameters; image decoding is modelled as an `Option` input.
Python exceptions that escape a handler are modelled by `Option`-valued
flows returning `none`.

Python's `str`/`int` conversions on registry keys are modelled by
executable decimal-numeral functions (`str_of_nat`, `str_to_nat?`);
`int(s)` is modelled on the domain the program uses (canonical decimal
numerals; any other string makes the conversion fail, as `int` raises).
-/

namespace Attendence

/-! ## Decimal numeral conversions (Python `str` / `int` on Nat keys) -/

/-- The decimal digits of `n`, most significant first, each `< 10`. -/
def natDigits (n : Nat) : List Nat :=
  if h : n < 10 then [n]
  else
    have : n / 10 < n := Nat.div_lt_self (by omega) (by omega)
    natDigits (n / 10) ++ [n % 10]

/-- A digit value to its ASCII character. -/
def digitChar (d : Nat) : Char := Char.ofNat (48 + d)

/-- Python `str(n)` for a natural number: its decimal numeral. -/
def str_of_nat (n : Nat) : String := String.mk ((natDigits n).map digitChar)

/-- Python `str(i)` for an integer. -/
def str_of_int (i : Int) : String :=
  if i < 0 then "-" ++ str_of_nat i.natAbs else str_of_nat i.toNat

/-- Parse one ASCII digit. -/
def digit? (c : Char) : Option Nat :=
  if 48 ≤ c.toNat ∧ c.toNat ≤ 57 then some (c.toNat - 48) else none

/-- Parse a list of digit characters, failing on any non-digit. -/
def digitsVal? : List Char → Option (List Nat)
  | [] => some []
  | c :: cs =>
    match digit? c, digitsVal? cs with
    | some d, some ds => some (d :: ds)
    | _, _ => none

/-- Python `int(s)` on the program's key domain: succeeds exactly on
nonempty all-digit strings, returning the value of the numeral
(`int` raises on anything else, which callers surface as a crash). -/
def str_to_nat? (s : String) : Option Nat :=
  match s.data with
  | [] => none
  | cs => (digitsVal? cs).map (List.foldl (fun a d => a * 10 + d) 0)

theorem natDigits_lt_ten (n : Nat) : ∀ d ∈ natDigits n, d < 10 := by
  induction n using Nat.strong_induction_on with
  | _ n ih =>
    rw [natDigits]
    split
    · intro d hd; simp only [List.mem_singleton] at hd; omega
    · intro d hd
      rcases List.mem_append.1 hd with h | h
      · exact ih (n / 10) (Nat.div_lt_self (by omega) (by omega)) d h
      · simp only [List.mem_singleton] at h; omega

theorem natDigits_ne_nil (n : Nat) : natDigits n ≠ [] := by
  rw [natDigits]
  split
  · simp
  · simp

theorem foldl_natDigits (n : Nat) :
    (natDigits n).foldl (fun a d => a * 10 + d) 0 = n := by
  suffices h : ∀ a, (natDigits n).foldl (fun x d => x * 10 + d) a = a * 10 ^ (natDigits n).length + n by
    simpa using h 0
  induction n using Nat.strong_induction_on with
  | _ n ih =>
    intro a
    rw [natDigits]
    split
    · simp [Nat.mul_comm]
    · rw [List.foldl_append]
      have hlt : n / 10 < n := Nat.div_lt_self (by omega) (by omega)
      rw [ih (n / 10) hlt a]
      simp only [List.foldl_cons, List.foldl_nil, List.length_append,
        List.length_singleton]
      rw [pow_succ]
      have := Nat.div_add_mod n 10
      ring_nf
      omega

theorem digit?_digitChar (d : Nat) (h : d < 10) : digit? (digitChar d) = some d := by
  interval_cases d <;> rfl

theorem digitsVal?_map_digitChar (ds : List Nat) (h : ∀ d ∈ ds, d < 10) :
    digitsVal? (ds.map digitChar) = some ds := by
  induction ds with
  | nil => rfl
  | cons d ds ih =>
    simp only [List.map_cons, digitsVal?]
    rw [digit?_digitChar d (h d (List.mem_cons_self d ds)),
      ih (fun x hx => h x (List.mem_cons_of_mem d hx))]

/-- Round trip: parsing the decimal numeral of `n` recovers `n`. -/
theorem str_to_nat?_str_of_nat (n : Nat) : str_to_nat? (str_of_nat n) = some n := by
  unfold str_to_nat? str_of_nat
  have hne : (natDigits n).map digitChar ≠ [] := by
    intro h
    exact natDigits_ne_nil n (List.map_eq_nil_iff.1 h)
  cases hmk : (natDigits n).map digitChar with
  | nil => exact absurd hmk hne
  | cons c cs =>
    simp only [String.data]
    rw [← hmk, digitsVal?_map_digitChar _ (natDigits_lt_ten n)]
    rw [Option.map_some', foldl_natDigits]

theorem str_of_nat_injective : Function.Injective str_of_nat := by
  intro a b h
  have := str_to_nat?_str_of_nat a
  rw [h, str_to_nat?_str_of_nat b] at this
  exact (Option.some_injective _ this).symm

theorem str_of_nat_ne_empty (n : Nat) : str_of_nat n ≠ "" := by
  intro h
  have : (natDigits n).map digitChar = ([] : List Char) := congrArg String.data h
  exact natDigits_ne_nil n (List.map_eq_nil_iff.1 this)

/-! ## Images and the Face Locator (`detect_face`, lines 60-81) -/

/-- A single-channel (grayscale) raster image. -/
structure GrayImage where
  rows : Nat
  cols : Nat
  px : Nat → Nat → Nat

/-- A decoded BGR color image (`cv2.imdecode(..., IMREAD_COLOR)`). -/
structure ColorImage where
  rows : Nat
  cols : Nat
  b : Nat → Nat → Nat
  g : Nat → Nat → Nat
  r : Nat → Nat → Nat

/-- A detector candidate rectangle `(x, y, w, h)`. -/
structure FaceRect where
  x : Nat
  y : Nat
  w : Nat
  h : Nat

/-- `cv2.cvtColor(img, COLOR_BGR2GRAY)`: standard luminance weights. -/
def cvtColorGray (img : ColorImage) : GrayImage :=
  { rows := img.rows, cols := img.cols,
    px := fun i j => (299 * img.r i j + 587 * img.g i j + 114 * img.b i j) / 1000 }

/-- Crop `gray[y : y+h, x : x+w]`. -/
def cropRect (g : GrayImage) (f : FaceRect) : GrayImage :=
  { rows := f.h, cols := f.w, px := fun i j => g.px (f.y + i) (f.x + j) }

/-- `cv2.resize(g, size)` with `size = (width, height)`; pixel values are
produced by index remapping (the claims depend only on the output
dimensions, which `cv2.resize` fixes to `size`). -/
def cv2_resize (g : GrayImage) (size : Nat × Nat) : GrayImage :=
  { rows := size.2, cols := size.1,
    px := fun i j => g.px (i * g.rows / size.2) (j * g.cols / size.1) }

/-- `FIXED_SIZE = (200, 200)`. -/
def FIXED_SIZE : Nat × Nat := (200, 200)

/-- `detect_face(img)` (lines 60-81): grayscale conversion, Haar-cascade
detection (the cascade is the external `detector` parameter), `None` on
zero candidates, else crop the first candidate and resize to
`FIXED_SIZE`.  Pure: no state is read or written. -/
def detect_face (detector : GrayImage → List FaceRect) (img : ColorImage) :
    Option GrayImage :=
  let gray := cvtColorGray img
  match detector gray with
  | [] => none
  | f :: _ => some (cv2_resize (cropRect gray f) FIXED_SIZE)

/-! ## Label registry (`load_labels`, `save_labels`, `get_next_label_id`) -/

/-- The in-memory `labels_dict`: an insertion-ordered association list
`label_id (string) ↦ name`, as a Python dict. -/
abbrev LabelsDict := List (String × String)

/-- The durable state of `labels.json`.  `missing`: the file does not
exist; `unreadable`: it exists but `open()` raises (permissions, or the
path is a directory); `corrupt`: it opens but `json.load` raises;
`valid d`: it parses to the mapping `d`. -/
inductive RegistryStore where
  | missing
  | unreadable
  | corrupt
  | valid (d : LabelsDict)
deriving DecidableEq

/-- `load_labels()` (lines 32-40).  A missing file returns `{}`; a parse
failure is caught by the bare `except` and returns `{}`; but the
`open()` call sits *outside* the `try`, so an unreadable file raises —
modelled as `none`. -/
def load_labels : RegistryStore → Option LabelsDict
  | .missing => some []
  | .unreadable => none
  | .corrupt => some []
  | .valid d => some d

/-- `get_next_label_id(labels_dict)` (lines 47-52): `"1"` on an empty
dict, else `str(max(map(int, keys)) + 1)`; `int` raising on a
non-numeral key is `none`. -/
def get_next_label_id (d : LabelsDict) : Option String :=
  if d.isEmpty then some "1"
  else
    match parseIds d with
    | none => none
    | some ids => some (str_of_nat (ids.foldr max 0 + 1))
where
  /-- `list(map(int, labels_dict.keys()))`, failing if any key fails. -/
  parseIds : LabelsDict → Option (List Nat)
    | [] => some []
    | kv :: rest =>
      match str_to_nat? kv.1, parseIds rest with
      | some k, some ks => some (k :: ks)
      | _, _ => none

/-- Python dict assignment `d[k] = v`: replace in place if the key
exists, else append (insertion order). -/
def dictInsert (d : LabelsDict) (k v : String) : LabelsDict :=
  if d.any (fun kv => kv.1 = k) then
    d.map (fun kv => if kv.1 = k then (k, v) else kv)
  else d ++ [(k, v)]

/-- Python `d.get(k, dflt)`. -/
def dictGet (d : LabelsDict) (k dflt : String) : String :=
  match d.find? (fun kv => kv.1 = k) with
  | some kv => kv.2
  | none => dflt

/-- The registry portion of `register_face` (lines 159-170): scan for the
first key whose value equals `name` (`break` on first hit); Python's
falsy test `if not label_id_str` treats both `None` and `""` as "not
found"; on allocation the new pair is written into the dict and saved.
Returns `(label_id, labels_dict, saved?)`; `none` models `int` raising
inside `get_next_label_id`. -/
def resolve_or_create (t : LabelsDict) (name : String) :
    Option (String × LabelsDict × Bool) :=
  let found := (t.find? (fun kv => kv.2 = name)).map (fun kv => kv.1)
  match found with
  | some s =>
    if s = "" then
      match get_next_label_id t with
      | none => none
      | some nid => some (nid, dictInsert t nid name, true)
    else some (s, t, false)
  | none =>
    match get_next_label_id t with
    | none => none
    | some nid => some (nid, dictInsert t nid name, true)

/-! ## Timestamps (`datetime.now().strftime(...)`) -/

/-- A wall-clock instant as broken-down fields (`datetime`). -/
structure Timestamp where
  year : Nat
  month : Nat
  day : Nat
  hour : Nat
  minute : Nat
  second : Nat
  usec : Nat
deriving DecidableEq

/-- Chronological order on instants (lexicographic on the fields). -/
def Timestamp.leb (a b : Timestamp) : Bool :=
  if a.year ≠ b.year then a.year < b.year
  else if a.month ≠ b.month then a.month < b.month
  else if a.day ≠ b.day then a.day < b.day
  else if a.hour ≠ b.hour then a.hour < b.hour
  else if a.minute ≠ b.minute then a.minute < b.minute
  else if a.second ≠ b.second then a.second < b.second
  else a.usec ≤ b.usec

/-- Zero-pad the decimal numeral of `n` to width `w` (strftime padding). -/
def padNum (w n : Nat) : String :=
  String.mk (List.replicate (w - (str_of_nat n).length) '0') ++ str_of_nat n

/-- `strftime("%Y-%m-%d %H:%M:%S")` (line 58). -/
def formatTimestamp (t : Timestamp) : String :=
  padNum 4 t.year ++ "-" ++ padNum 2 t.month ++ "-" ++ padNum 2 t.day ++ " " ++
    padNum 2 t.hour ++ ":" ++ padNum 2 t.minute ++ ":" ++ padNum 2 t.second

/-- `strftime("%Y%m%d_%H%M%S%f")` (line 177), the sample file name. -/
def formatFilename (t : Timestamp) : String :=
  padNum 4 t.year ++ padNum 2 t.month ++ padNum 2 t.day ++ "_" ++
    padNum 2 t.hour ++ padNum 2 t.minute ++ padNum 2 t.second ++ padNum 6 t.usec

/-! ## Sample corpus, trained model, system state -/

/-- A file in a per-identity sample directory: its name and what
`cv2.imread(..., IMREAD_GRAYSCALE)` yields (`none` = undecodable). -/
structure FileEntry where
  filename : String
  decoded : Option GrayImage

/-- The `dataset/` tree: one directory (listed in creation order) per
label id, holding files in `os.listdir` order. -/
abbrev Dataset := List (String × List FileEntry)

/-- The persisted EigenFace model.  The artifact is fully determined by
the `(face, label)` training pairs it was built from (the spec: a
derivable cache of the corpus); the external `predict` parameter maps it
and a probe to cv2's `(label, confidence)` answer. -/
abbrev Model := List (GrayImage × Int)

/-- The durable state the flows read and write. -/
structure SysState where
  registry : RegistryStore
  dataset : Dataset
  modelFile : Option Model
  ledger : List (String × String)

/-- `filename.lower().endswith((".png", ".jpg", ".jpeg"))` (line 103). -/
def isImageName (s : String) : Bool :=
  s.toLower.endsWith ".png" || s.toLower.endsWith ".jpg" || s.toLower.endsWith ".jpeg"

/-- The decodable images of one directory, in listing order, each
re-resized to `FIXED_SIZE` (lines 102-109): extension filter, `imread`,
skip on decode failure, defensive resize. -/
def trainImages (files : List FileEntry) : List GrayImage :=
  files.filterMap fun fe =>
    if isImageName fe.filename then fe.decoded.map (cv2_resize · FIXED_SIZE) else none

/-- The training-set accumulation loop of `train_model` (lines 96-112):
for each registry entry in order, skip it if its directory is absent,
else append every decodable image paired with `int(label_id_str)`.
`int` is only evaluated when an image is appended; its failure (a
non-numeral key with at least one image) raises — `none`. -/
def gather_training : LabelsDict → Dataset → Option (List (GrayImage × Int))
  | [], _ => some []
  | kv :: rest, ds =>
    match ds.find? (fun e => e.1 = kv.1) with
    | none => gather_training rest ds
    | some dir =>
      let imgs := trainImages dir.2
      if imgs.isEmpty then gather_training rest ds
      else
        match str_to_nat? kv.1 with
        | none => none
        | some k =>
          (gather_training rest ds).map
            (fun t => imgs.map (fun i => (i, (k : Int))) ++ t)

/-- `train_model()` (lines 83-120): reload the registry, gather the
training set, return `False` (Skipped) on an empty set without touching
the model file, else train and save the new model.  (The `os.makedirs`
of an absent top-level `dataset/` has no effect on the modelled tree.)
`none` models an uncaught exception. -/
def train_model (st : SysState) : Option (Bool × SysState) :=
  match load_labels st.registry with
  | none => none
  | some t =>
    match gather_training t st.dataset with
    | none => none
    | some tset =>
      if tset.isEmpty then some (false, st)
      else some (true, { st with modelFile := some tset })

/-- `load_model()` (lines 122-127): `True` iff the model file exists, in
which case the recognizer state is the file's content. -/
def load_model (st : SysState) : Bool := st.modelFile.isSome

/-! ## The request flows (`register_face`, `recognize_face`) -/

/-- The semantic payloads `register_face` can answer with (the
missing-form-field 400 is below the modelled interface: requests here
always carry a name and an image file). -/
inductive RegisterResponse where
  | invalidImage
  | noFace
  | registeredNoTraining
  | registered (name : String)
deriving DecidableEq

/-- The semantic payloads `recognize_face` can answer with; `recognized`
and `rejected` both carry the numeric EigenFace score. -/
inductive RecognizeResponse where
  | invalidImage
  | noFace
  | noModel
  | recognized (name : String) (confidence : ℚ)
  | rejected (confidence : ℚ)
deriving DecidableEq

/-- `THRESHOLD = 5500.0` (line 219). -/
def THRESHOLD : ℚ := 5500

/-- `mark_attendance(name)` (lines 54-58): append one `(name, timestamp)`
row to `attendance.csv`. -/
def mark_attendance (ledger : List (String × String)) (name : String)
    (now : Timestamp) : List (String × String) :=
  ledger ++ [(name, formatTimestamp now)]

/-- Save the cropped face into `dataset/<label_id>/` (lines 172-179):
create the directory on first use, then write the timestamp-named file. -/
def datasetAdd (ds : Dataset) (label_id : String) (fe : FileEntry) : Dataset :=
  if ds.any (fun e => e.1 = label_id) then
    ds.map (fun e => if e.1 = label_id then (e.1, e.2 ++ [fe]) else e)
  else ds ++ [(label_id, [fe])]

/-- `register_face()` (lines 133-186) below the HTTP layer.  `img?` is
the `cv2.imdecode` result, `now` the wall clock at the save step.
Returns the response and the post-state; `none` models an uncaught
exception (unreadable registry, or `int` raising on a key). -/
def register_face (detector : GrayImage → List FaceRect) (st : SysState)
    (name : String) (img? : Option ColorImage) (now : Timestamp) :
    Option (RegisterResponse × SysState) :=
  match img? with
  | none => some (.invalidImage, st)
  | some img =>
    match detect_face detector img with
    | none => some (.noFace, st)
    | some face =>
      match load_labels st.registry with
      | none => none
      | some t =>
        match resolve_or_create t name with
        | none => none
        | some (label_id, t', saved) =>
          match train_model
              { st with
                registry := if saved then RegistryStore.valid t' else st.registry,
                dataset := datasetAdd st.dataset label_id
                  ⟨formatFilename now ++ ".jpg", some face⟩ } with
          | none => none
          | some (false, st2) => some (.registeredNoTraining, st2)
          | some (true, st2) => some (.registered name, st2)

/-- `recognize_face()` (lines 188-236) below the HTTP layer.  `predict`
is the external EigenFace nearest-neighbor classifier; `now` the wall
clock at the attendance-marking step. -/
def recognize_face (detector : GrayImage → List FaceRect)
    (predict : Model → GrayImage → Int × ℚ) (st : SysState)
    (img? : Option ColorImage) (now : Timestamp) :
    Option (RecognizeResponse × SysState) :=
  match img? with
  | none => some (.invalidImage, st)
  | some img =>
    match detect_face detector img with
    | none => some (.noFace, st)
    | some face =>
      match st.modelFile with
      | none => some (.noModel, st)
      | some model =>
        match predict model face with
        | (label_id, confidence) =>
          if confidence < THRESHOLD then
            match load_labels st.registry with
            | none => none
            | some t =>
              some (.recognized (dictGet t (str_of_int label_id) "Unknown") confidence,
                { st with
                  ledger := mark_attendance st.ledger
                    (dictGet t (str_of_int label_id) "Unknown") now })
          else some (.rejected confidence, st)

/-! ## Registry well-formedness and allocation lemmas -/

/-- The registry's data-model invariant: every stored key is the decimal
numeral of a positive integer id. -/
def WFDict (d : LabelsDict) : Prop :=
  ∀ kv ∈ d, ∃ k : Nat, 1 ≤ k ∧ kv.1 = str_of_nat k

/-- The largest id stored in the registry (`0` when empty). -/
def maxKey (d : LabelsDict) : Nat :=
  (d.map (fun kv => (str_to_nat? kv.1).getD 0)).foldr max 0

theorem str_of_nat_one : str_of_nat 1 = "1" := by
  rw [str_of_nat, natDigits]
  rfl

theorem foldr_max_init (l : List Nat) (a : Nat) :
    l.foldr max a = max (l.foldr max 0) a := by
  induction l with
  | nil => simp
  | cons x l ih => simp [List.foldr_cons, ih, Nat.max_assoc]

theorem le_foldr_max (l : List Nat) : ∀ x ∈ l, x ≤ l.foldr max 0 := by
  induction l with
  | nil => simp
  | cons y l ih =>
    intro x hx
    rcases List.mem_cons.1 hx with h | h
    · subst h; exact Nat.le_max_left _ _
    · exact le_trans (ih x h) (Nat.le_max_right _ _)

theorem parseIds_of_WF (d : LabelsDict) (hwf : WFDict d) :
    get_next_label_id.parseIds d =
      some (d.map (fun kv => (str_to_nat? kv.1).getD 0)) := by
  induction d with
  | nil => rfl
  | cons kv rest ih =>
    obtain ⟨k, -, hkey⟩ := hwf kv (List.mem_cons_self kv rest)
    have hparse : str_to_nat? kv.1 = some k := by
      rw [hkey]; exact str_to_nat?_str_of_nat k
    rw [get_next_label_id.parseIds, hparse,
      ih (fun x hx => hwf x (List.mem_cons_of_mem kv hx))]
    simp [hparse]

theorem key_le_maxKey (d : LabelsDict) (kv : String × String) (k : Nat)
    (hmem : kv ∈ d) (hkey : kv.1 = str_of_nat k) : k ≤ maxKey d := by
  have hparse : (str_to_nat? kv.1).getD 0 = k := by
    rw [hkey, str_to_nat?_str_of_nat]; rfl
  have : (str_to_nat? kv.1).getD 0 ∈ d.map (fun kv => (str_to_nat? kv.1).getD 0) :=
    List.mem_map_of_mem _ hmem
  rw [hparse] at this
  exact le_foldr_max _ k this

theorem get_next_of_WF (d : LabelsDict) (hwf : WFDict d) :
    get_next_label_id d = some (str_of_nat (maxKey d + 1)) := by
  cases d with
  | nil =>
    rw [get_next_label_id]
    simp [maxKey, str_of_nat_one]
  | cons kv rest =>
    rw [get_next_label_id, parseIds_of_WF _ hwf]
    simp [maxKey]

theorem newKey_not_mem (d : LabelsDict) (hwf : WFDict d) :
    ∀ kv ∈ d, kv.1 ≠ str_of_nat (maxKey d + 1) := by
  intro kv hmem heq
  obtain ⟨k, -, hkey⟩ := hwf kv hmem
  have hk : k = maxKey d + 1 := str_of_nat_injective (hkey ▸ heq)
  have := key_le_maxKey d kv k hmem hkey
  omega

theorem dictInsert_append (d : LabelsDict) (nk v : String)
    (h : ∀ kv ∈ d, kv.1 ≠ nk) : dictInsert d nk v = d ++ [(nk, v)] := by
  have hany : d.any (fun kv => kv.1 = nk) = false := by
    rw [List.any_eq_false]
    intro kv hkv
    simpa using h kv hkv
  simp [dictInsert, hany]

theorem maxKey_append (d : LabelsDict) (k : Nat) (nm : String) :
    maxKey (d ++ [(str_of_nat k, nm)]) = max (maxKey d) k := by
  rw [maxKey, List.map_append, List.foldr_append]
  simp only [List.map_cons, List.map_nil, List.foldr_cons, List.foldr_nil,
    str_to_nat?_str_of_nat, Option.getD_some]
  rw [foldr_max_init]
  simp [maxKey, Nat.max_comm]

theorem WF_append (d : LabelsDict) (k : Nat) (nm : String)
    (hwf : WFDict d) (hk : 1 ≤ k) : WFDict (d ++ [(str_of_nat k, nm)]) := by
  intro kv hkv
  rcases List.mem_append.1 hkv with h | h
  · exact hwf kv h
  · simp only [List.mem_singleton] at h
    exact ⟨k, hk, by rw [h]⟩

theorem find?_append_none {α : Type} (p : α → Bool) (l1 l2 : List α)
    (h : l1.find? p = none) : (l1 ++ l2).find? p = l2.find? p := by
  induction l1 with
  | nil => rfl
  | cons x l ih =>
    cases hp : p x with
    | true =>
      rw [List.find?_cons_of_pos _ hp] at h
      exact absurd h (by simp)
    | false =>
      have hp' : ¬p x = true := by simp [hp]
      rw [List.find?_cons_of_neg _ hp'] at h
      rw [List.cons_append, List.find?_cons_of_neg _ hp']
      exact ih h

/-- Allocation path of `resolve_or_create`: a fresh name gets id
`max + 1`, appended and saved. -/
theorem resolve_alloc (d : LabelsDict) (name : String) (hwf : WFDict d)
    (hnone : d.find? (fun kv => kv.2 = name) = none) :
    resolve_or_create d name =
      some (str_of_nat (maxKey d + 1),
        d ++ [(str_of_nat (maxKey d + 1), name)], true) := by
  have h1 := get_next_of_WF d hwf
  have h2 := dictInsert_append d (str_of_nat (maxKey d + 1)) name (newKey_not_mem d hwf)
  simp [resolve_or_create, hnone, h1, h2]

/-- Lookup path of `resolve_or_create`: a name that already maps to a
(well-formed, hence nonempty) key returns it with no mutation. -/
theorem resolve_found (d : LabelsDict) (name i : String) (hwf : WFDict d)
    (hfound : (d.find? (fun kv => kv.2 = name)).map (fun kv => kv.1) = some i) :
    resolve_or_create d name = some (i, d, false) := by
  obtain ⟨kv, hkv, hkvi⟩ : ∃ kv, d.find? (fun kv => kv.2 = name) = some kv ∧ kv.1 = i := by
    cases hf : d.find? (fun kv => kv.2 = name) with
    | none => rw [hf] at hfound; exact absurd hfound (by simp)
    | some kv => rw [hf] at hfound; exact ⟨kv, rfl, by simpa using hfound⟩
  obtain ⟨k, -, hkey⟩ := hwf kv (List.mem_of_find?_eq_some hkv)
  have hne : i ≠ "" := by
    rw [← hkvi, hkey]; exact str_of_nat_ne_empty k
  simp [resolve_or_create, hkv, hkvi, hne]

theorem str_of_nat_two : str_of_nat 2 = "2" := by
  rw [str_of_nat, natDigits]; rfl

theorem str_of_nat_three : str_of_nat 3 = "3" := by
  rw [str_of_nat, natDigits]; rfl

/-- C2: a name already mapping to some id resolves to that id with no
registry mutation; a previously-unseen name allocates
`max existing id + 1` (so `1` on an empty registry), persists the pair
before returning (`saved = true`), re-resolving it afterwards yields the
same id both times with no further save, and a second fresh name obtains
the strictly larger id `max + 2`. -/
theorem resolve_or_create_spec (d : LabelsDict) (n1 n2 : String)
    (hwf : WFDict d) :
    (∀ i, (d.find? (fun kv => kv.2 = n1)).map (fun kv => kv.1) = some i →
      resolve_or_create d n1 = some (i, d, false)) ∧
    (d.find? (fun kv => kv.2 = n1) = none →
      resolve_or_create d n1 =
        some (str_of_nat (maxKey d + 1),
          d ++ [(str_of_nat (maxKey d + 1), n1)], true) ∧
      str_to_nat? (str_of_nat (maxKey d + 1)) = some (maxKey d + 1) ∧
      (d = [] → str_of_nat (maxKey d + 1) = "1") ∧
      resolve_or_create (d ++ [(str_of_nat (maxKey d + 1), n1)]) n1 =
        some (str_of_nat (maxKey d + 1),
          d ++ [(str_of_nat (maxKey d + 1), n1)], false) ∧
      (n2 ≠ n1 → d.find? (fun kv => kv.2 = n2) = none →
        resolve_or_create (d ++ [(str_of_nat (maxKey d + 1), n1)]) n2 =
          some (str_of_nat (maxKey d + 2),
            (d ++ [(str_of_nat (maxKey d + 1), n1)]) ++
              [(str_of_nat (maxKey d + 2), n2)], true) ∧
        str_to_nat? (str_of_nat (maxKey d + 2)) = some (maxKey d + 2) ∧
        maxKey d + 1 < maxKey d + 2)) := by
  constructor
  · intro i hfound
    exact resolve_found d n1 i hwf hfound
  · intro hnone
    have hwf' : WFDict (d ++ [(str_of_nat (maxKey d + 1), n1)]) :=
      WF_append d (maxKey d + 1) n1 hwf (by omega)
    have hmk' : maxKey (d ++ [(str_of_nat (maxKey d + 1), n1)]) = maxKey d + 1 := by
      rw [maxKey_append]
      omega
    refine ⟨resolve_alloc d n1 hwf hnone, str_to_nat?_str_of_nat _, ?_, ?_, ?_⟩
    · intro hd
      subst hd
      exact str_of_nat_one
    · have hfind : ((d ++ [(str_of_nat (maxKey d + 1), n1)]).find?
          (fun kv => kv.2 = n1)).map (fun kv => kv.1) =
          some (str_of_nat (maxKey d + 1)) := by
        rw [find?_append_none _ d _ hnone]
        simp [List.find?_cons]
      exact resolve_found _ n1 _ hwf' hfind
    · intro hne hnone2
      have hnone2' : (d ++ [(str_of_nat (maxKey d + 1), n1)]).find?
          (fun kv => kv.2 = n2) = none := by
        rw [find?_append_none _ d _ hnone2]
        simp [List.find?_cons, Ne.symm hne]
      have halloc := resolve_alloc _ n2 hwf' hnone2'
      rw [hmk'] at halloc
      exact ⟨halloc, str_to_nat?_str_of_nat _, by omega⟩

theorem resolve_or_create_spec_witness :
    WFDict [("1", "alice")] ∧
    [("1", "alice")].find? (fun kv => kv.2 = "bob") = none ∧
    resolve_or_create [("1", "alice")] "bob" =
      some ("2", [("1", "alice"), ("2", "bob")], true) ∧
    resolve_or_create [("1", "alice"), ("2", "bob")] "bob" =
      some ("2", [("1", "alice"), ("2", "bob")], false) ∧
    resolve_or_create [("1", "alice"), ("2", "bob")] "carol" =
      some ("3", [("1", "alice"), ("2", "bob"), ("3", "carol")], true) := by
  have hwf : WFDict [("1", "alice")] := by
    intro kv hkv
    simp only [List.mem_singleton] at hkv
    exact ⟨1, le_refl 1, by rw [hkv, str_of_nat_one]⟩
  have h := (resolve_or_create_spec [("1", "alice")] "bob" "carol" hwf).2 rfl
  obtain ⟨h1, -, -, h4, h5⟩ := h
  obtain ⟨h7, -, -⟩ := h5 (by decide) rfl
  have hmk : maxKey [("1", "alice")] = 1 := rfl
  rw [hmk] at h1 h4 h7
  norm_num at h1 h4 h7
  rw [str_of_nat_two] at h1 h4 h7
  rw [str_of_nat_three] at h7
  exact ⟨hwf, rfl, h1, h4, h7⟩

/-! ## Concrete fixtures used by the witnesses -/

/-- A small decoded color image. -/
def testImg : ColorImage :=
  { rows := 4, cols := 4, b := fun _ _ => 10, g := fun _ _ => 20, r := fun _ _ => 30 }

/-- A candidate face region inside `testImg`. -/
def testRect : FaceRect := { x := 0, y := 0, w := 2, h := 2 }

/-- A detector reporting exactly one candidate. -/
def detOne : GrayImage → List FaceRect := fun _ => [testRect]

/-- A detector reporting no candidate. -/
def detNone : GrayImage → List FaceRect := fun _ => []

/-- The normalized patch `detect_face detOne testImg` produces. -/
def testFace : GrayImage := cv2_resize (cropRect (cvtColorGray testImg) testRect) FIXED_SIZE

/-- A persisted model with one training pair labelled `1`. -/
def testModel : Model := [(testFace, 1)]

/-- An EigenFace classifier answering label `1` with score `100`. -/
def predLow : Model → GrayImage → Int × ℚ := fun _ _ => (1, 100)

/-- An EigenFace classifier answering label `1` with score `6000`. -/
def predHigh : Model → GrayImage → Int × ℚ := fun _ _ => (1, 6000)

/-- An EigenFace classifier answering the stale label `7` with score `100`. -/
def predStale : Model → GrayImage → Int × ℚ := fun _ _ => (7, 100)

/-- Two wall-clock instants, `tStart ≤ tNow`. -/
def tStart : Timestamp := ⟨2026, 1, 2, 3, 4, 5, 0⟩

def tNow : Timestamp := ⟨2026, 1, 2, 3, 4, 6, 0⟩

/-- A system state with one enrolled identity and a trained model. -/
def stTrained : SysState :=
  { registry := .valid [("1", "alice")], dataset := [("1", [])],
    modelFile := some testModel, ledger := [] }

theorem str_of_int_one : str_of_int 1 = "1" := by
  rw [str_of_int, if_neg (by norm_num)]
  exact str_of_nat_one

/-! ## Claim theorems -/

/-- C6: on a decodable image the Face Locator returns `NotFound` exactly
when the detector yields zero candidate regions; otherwise it crops the
first candidate the detector returned and yields a single-channel patch
of exactly the canonical 200×200 resolution (`detect_face` is a pure
function: it takes no state and returns only the patch). -/
theorem detect_face_spec (detector : GrayImage → List FaceRect) (img : ColorImage) :
    (detector (cvtColorGray img) = [] → detect_face detector img = none) ∧
    (∀ f fs, detector (cvtColorGray img) = f :: fs →
      detect_face detector img =
        some (cv2_resize (cropRect (cvtColorGray img) f) FIXED_SIZE) ∧
      (cv2_resize (cropRect (cvtColorGray img) f) FIXED_SIZE).rows = 200 ∧
      (cv2_resize (cropRect (cvtColorGray img) f) FIXED_SIZE).cols = 200) := by
  constructor
  · intro h
    simp [detect_face, h]
  · intro f fs h
    refine ⟨by simp [detect_face, h], rfl, rfl⟩

theorem detect_face_spec_witness :
    detOne (cvtColorGray testImg) = [testRect] ∧
    detect_face detOne testImg = some testFace ∧
    testFace.rows = 200 ∧ testFace.cols = 200 ∧
    detNone (cvtColorGray testImg) = [] ∧
    detect_face detNone testImg = none := by
  have h1 := (detect_face_spec detOne testImg).2 testRect [] rfl
  have h2 := (detect_face_spec detNone testImg).1 rfl
  exact ⟨rfl, h1.1, h1.2.1, h1.2.2, rfl, h2⟩

/-- C4: when a face is detected but no trained model file exists, the
recognizer answers `NoModel` with the state untouched, and this outcome
is a constructor distinct from every `rejected` outcome. -/
theorem recognize_no_model_spec (detector : GrayImage → List FaceRect)
    (predict : Model → GrayImage → Int × ℚ) (st : SysState)
    (img : ColorImage) (face : GrayImage) (now : Timestamp)
    (hdet : detect_face detector img = some face)
    (hmodel : st.modelFile = none) :
    recognize_face detector predict st (some img) now = some (.noModel, st) ∧
    (∀ c : ℚ, (RecognizeResponse.noModel : RecognizeResponse) ≠ .rejected c) := by
  constructor
  · simp [recognize_face, hdet, hmodel]
  · intro c h
    exact RecognizeResponse.noConfusion h

theorem recognize_no_model_spec_witness :
    detect_face detOne testImg = some testFace ∧
    ({ stTrained with modelFile := none } : SysState).modelFile = none ∧
    recognize_face detOne predLow { stTrained with modelFile := none }
      (some testImg) tNow = some (.noModel, { stTrained with modelFile := none }) := by
  have h := recognize_no_model_spec detOne predLow
    { stTrained with modelFile := none } testImg testFace tNow rfl rfl
  exact ⟨rfl, rfl, h.1⟩

/-- C8: when the image decodes but no face is detected, both flows answer
the no-face outcome and return the state unchanged — registry, sample
corpus, model file and ledger are all untouched. -/
theorem no_face_frame_spec (detector : GrayImage → List FaceRect)
    (predict : Model → GrayImage → Int × ℚ) (st : SysState)
    (name : String) (img : ColorImage) (now : Timestamp)
    (hdet : detect_face detector img = none) :
    register_face detector st name (some img) now = some (.noFace, st) ∧
    recognize_face detector predict st (some img) now = some (.noFace, st) := by
  constructor
  · simp [register_face, hdet]
  · simp [recognize_face, hdet]

theorem no_face_frame_spec_witness :
    detect_face detNone testImg = none ∧
    register_face detNone stTrained "alice" (some testImg) tNow =
      some (.noFace, stTrained) ∧
    recognize_face detNone predLow stTrained (some testImg) tNow =
      some (.noFace, stTrained) := by
  have h := no_face_frame_spec detNone predLow stTrained "alice" testImg tNow rfl
  exact ⟨rfl, h.1, h.2⟩

/-- C1: with a face detected and a trained model present, the recognizer
answers `recognized` (carrying the nearest-neighbor label's
registry-resolved name) exactly when the predicted score is strictly
below `THRESHOLD = 5500`, and `rejected` otherwise; both answers carry
the numeric score. -/
theorem recognize_threshold_spec (detector : GrayImage → List FaceRect)
    (predict : Model → GrayImage → Int × ℚ) (st : SysState)
    (img : ColorImage) (face : GrayImage) (model : Model)
    (lid : Int) (conf : ℚ) (t : LabelsDict) (now : Timestamp)
    (hdet : detect_face detector img = some face)
    (hmodel : st.modelFile = some model)
    (hpred : predict model face = (lid, conf)) :
    (conf < THRESHOLD → load_labels st.registry = some t →
      recognize_face detector predict st (some img) now =
        some (.recognized (dictGet t (str_of_int lid) "Unknown") conf,
          { st with ledger := st.ledger ++
            [(dictGet t (str_of_int lid) "Unknown", formatTimestamp now)] })) ∧
    (¬ conf < THRESHOLD →
      recognize_face detector predict st (some img) now =
        some (.rejected conf, st)) := by
  constructor
  · intro hlt hload
    simp [recognize_face, hdet, hmodel, hpred, hlt, hload, mark_attendance]
  · intro hge
    simp [recognize_face, hdet, hmodel, hpred, hge]

theorem recognize_threshold_spec_witness :
    detect_face detOne testImg = some testFace ∧
    stTrained.modelFile = some testModel ∧
    predLow testModel testFace = (1, 100) ∧
    predHigh testModel testFace = (1, 6000) ∧
    (100 : ℚ) < THRESHOLD ∧ ¬ (6000 : ℚ) < THRESHOLD ∧
    load_labels stTrained.registry = some [("1", "alice")] ∧
    recognize_face detOne predLow stTrained (some testImg) tNow =
      some (.recognized "alice" 100,
        { stTrained with ledger := [("alice", formatTimestamp tNow)] }) ∧
    recognize_face detOne predHigh stTrained (some testImg) tNow =
      some (.rejected 6000, stTrained) := by
  have hlt : (100 : ℚ) < THRESHOLD := by norm_num [THRESHOLD]
  have hge : ¬ (6000 : ℚ) < THRESHOLD := by norm_num [THRESHOLD]
  have h1 := (recognize_threshold_spec detOne predLow stTrained testImg testFace
    testModel 1 100 [("1", "alice")] tNow rfl rfl rfl).1 hlt rfl
  have h2 := (recognize_threshold_spec detOne predHigh stTrained testImg testFace
    testModel 1 6000 [("1", "alice")] tNow rfl rfl rfl).2 hge
  have hget : dictGet [("1", "alice")] (str_of_int 1) "Unknown" = "alice" := by
    rw [str_of_int_one]; rfl
  rw [hget] at h1
  exact ⟨rfl, rfl, rfl, rfl, hlt, hge, rfl, h1, h2⟩

/-- C10: with a trained model present, a face detected and a score below
threshold, a predicted label id absent from the registry still yields a
successful `recognized` answer under the sentinel name `"Unknown"`, and
exactly one ledger record `("Unknown", timestamp)` is appended. -/
theorem recognize_stale_label_spec (detector : GrayImage → List FaceRect)
    (predict : Model → GrayImage → Int × ℚ) (st : SysState)
    (img : ColorImage) (face : GrayImage) (model : Model)
    (lid : Int) (conf : ℚ) (t : LabelsDict) (now : Timestamp)
    (hdet : detect_face detector img = some face)
    (hmodel : st.modelFile = some model)
    (hpred : predict model face = (lid, conf))
    (hlt : conf < THRESHOLD)
    (hload : load_labels st.registry = some t)
    (hstale : t.find? (fun kv => kv.1 = str_of_int lid) = none) :
    recognize_face detector predict st (some img) now =
      some (.recognized "Unknown" conf,
        { st with ledger := st.ledger ++ [("Unknown", formatTimestamp now)] }) := by
  have hget : dictGet t (str_of_int lid) "Unknown" = "Unknown" := by
    rw [dictGet, hstale]
  simp [recognize_face, hdet, hmodel, hpred, hlt, hload, mark_attendance, hget]

theorem recognize_stale_label_spec_witness :
    detect_face detOne testImg = some testFace ∧
    stTrained.modelFile = some testModel ∧
    predStale testModel testFace = (7, 100) ∧
    (100 : ℚ) < THRESHOLD ∧
    [("1", "alice")].find? (fun kv => kv.1 = str_of_int 7) = none ∧
    recognize_face detOne predStale stTrained (some testImg) tNow =
      some (.recognized "Unknown" 100,
        { stTrained with ledger := [("Unknown", formatTimestamp tNow)] }) := by
  have hlt : (100 : ℚ) < THRESHOLD := by norm_num [THRESHOLD]
  have hstale : [("1", "alice")].find? (fun kv => kv.1 = str_of_int 7) = none := by
    have h7 : str_of_int 7 = "7" := by
      rw [str_of_int, if_neg (by norm_num), str_of_nat, natDigits]
      rfl
    rw [h7]
    rfl
  have h := recognize_stale_label_spec detOne predStale stTrained testImg testFace
    testModel 7 100 [("1", "alice")] tNow rfl rfl rfl hlt rfl hstale
  exact ⟨rfl, rfl, rfl, hlt, hstale, h⟩

theorem gather_no_dirs (t : LabelsDict) (ds : Dataset)
    (h : ∀ kv ∈ t, ds.find? (fun e => e.1 = kv.1) = none) :
    gather_training t ds = some [] := by
  induction t with
  | nil => rfl
  | cons kv rest ih =>
    rw [gather_training, h kv (List.mem_cons_self kv rest)]
    exact ih (fun x hx => h x (List.mem_cons_of_mem kv hx))

theorem gather_no_images (t : LabelsDict) (ds : Dataset)
    (h : ∀ e ∈ ds, trainImages e.2 = []) :
    gather_training t ds = some [] := by
  induction t with
  | nil => rfl
  | cons kv rest ih =>
    rw [gather_training]
    cases hf : ds.find? (fun e => e.1 = kv.1) with
    | none => exact ih
    | some dir =>
      have hdir : trainImages dir.2 = [] := h dir (List.mem_of_find?_eq_some hf)
      simpa [hdir] using ih

/-- C3: whenever the aggregate training set is empty — in particular when
the registry has no entries, when no listed identity has a sample
directory, or when no directory holds a decodable image file —
`train_model` returns `False` (Skipped) and the whole state, the
persisted model file included, is returned unchanged. -/
theorem train_model_skip_spec (st : SysState) (t : LabelsDict)
    (hload : load_labels st.registry = some t) :
    (gather_training t st.dataset = some [] → train_model st = some (false, st)) ∧
    (t = [] → gather_training t st.dataset = some []) ∧
    ((∀ kv ∈ t, st.dataset.find? (fun e => e.1 = kv.1) = none) →
      gather_training t st.dataset = some []) ∧
    ((∀ e ∈ st.dataset, trainImages e.2 = []) →
      gather_training t st.dataset = some []) := by
  refine ⟨?_, ?_, gather_no_dirs t st.dataset, gather_no_images t st.dataset⟩
  · intro hempty
    simp [train_model, hload, hempty]
  · intro ht
    subst ht
    rfl

theorem train_model_skip_spec_witness :
    load_labels stTrained.registry = some [("1", "alice")] ∧
    gather_training [("1", "alice")] stTrained.dataset = some [] ∧
    train_model stTrained = some (false, stTrained) := by
  have h := train_model_skip_spec stTrained [("1", "alice")] rfl
  have hg : gather_training [("1", "alice")] stTrained.dataset = some [] :=
    h.2.2.2 (by
      intro e he
      simp only [stTrained, List.mem_singleton] at he
      subst he
      rfl)
  exact ⟨rfl, hg, h.1 hg⟩

theorem train_model_frame (st : SysState) (b : Bool) (st' : SysState)
    (h : train_model st = some (b, st')) :
    st'.registry = st.registry ∧ st'.dataset = st.dataset ∧
      st'.ledger = st.ledger := by
  rw [train_model] at h
  split at h
  · exact absurd h (by simp)
  · split at h
    · exact absurd h (by simp)
    · split at h
      · simp only [Option.some.injEq, Prod.mk.injEq] at h
        rw [← h.2]
        exact ⟨rfl, rfl, rfl⟩
      · simp only [Option.some.injEq, Prod.mk.injEq] at h
        rw [← h.2]
        exact ⟨rfl, rfl, rfl⟩

/-- Case classification of `recognize_face`: a `recognized` answer comes
with exactly one appended ledger row; every other answer returns the
state unchanged. -/
theorem recognize_face_cases (detector : GrayImage → List FaceRect)
    (predict : Model → GrayImage → Int × ℚ) (st : SysState)
    (img? : Option ColorImage) (now : Timestamp)
    (resp : RecognizeResponse) (st' : SysState)
    (h : recognize_face detector predict st img? now = some (resp, st')) :
    (∃ nm c, resp = .recognized nm c ∧
      st' = { st with ledger := st.ledger ++ [(nm, formatTimestamp now)] }) ∨
    ((∀ nm c, resp ≠ .recognized nm c) ∧ st' = st) := by
  rw [recognize_face.eq_def] at h
  split at h
  · right
    simp only [Option.some.injEq, Prod.mk.injEq] at h
    obtain ⟨h1, h2⟩ := h
    subst h2
    exact ⟨fun nm c hc => by rw [← h1] at hc; exact RecognizeResponse.noConfusion hc, rfl⟩
  · split at h
    · right
      simp only [Option.some.injEq, Prod.mk.injEq] at h
      obtain ⟨h1, h2⟩ := h
      subst h2
      exact ⟨fun nm c hc => by rw [← h1] at hc; exact RecognizeResponse.noConfusion hc, rfl⟩
    · split at h
      · right
        simp only [Option.some.injEq, Prod.mk.injEq] at h
        obtain ⟨h1, h2⟩ := h
        subst h2
        exact ⟨fun nm c hc => by rw [← h1] at hc; exact RecognizeResponse.noConfusion hc, rfl⟩
      · split at h
        · split at h
          · split at h
            · exact absurd h (by simp)
            · left
              simp only [Option.some.injEq, Prod.mk.injEq] at h
              obtain ⟨h1, h2⟩ := h
              subst h2
              exact ⟨_, _, h1.symm, by simp [mark_attendance]⟩
          · right
            simp only [Option.some.injEq, Prod.mk.injEq] at h
            obtain ⟨h1, h2⟩ := h
            subst h2
            exact ⟨fun nm c hc => by rw [← h1] at hc; exact RecognizeResponse.noConfusion hc, rfl⟩

/-- `register_face` never writes the attendance ledger. -/
theorem register_face_ledger_frame (detector : GrayImage → List FaceRect)
    (st : SysState) (name : String) (img? : Option ColorImage) (now : Timestamp)
    (resp : RegisterResponse) (st' : SysState)
    (h : register_face detector st name img? now = some (resp, st')) :
    st'.ledger = st.ledger := by
  rw [register_face.eq_def] at h
  split at h
  · simp only [Option.some.injEq, Prod.mk.injEq] at h
    rw [← h.2]
  · split at h
    · simp only [Option.some.injEq, Prod.mk.injEq] at h
      rw [← h.2]
    · split at h
      · exact absurd h (by simp)
      · split at h
        · exact absurd h (by simp)
        · split at h
          · exact absurd h (by simp)
          · rename_i st2 heq
            simp only [Option.some.injEq, Prod.mk.injEq] at h
            rw [← h.2]
            exact (train_model_frame _ _ _ heq).2.2
          · rename_i st2 heq
            simp only [Option.some.injEq, Prod.mk.injEq] at h
            rw [← h.2]
            exact (train_model_frame _ _ _ heq).2.2

/-- C7: under a monotone clock (the request's start is no later than the
instant the ledger row is written), every `recognized` outcome appends
exactly one `(name, timestamp)` row, with the timestamp rendered as
`YYYY-MM-DD HH:MM:SS` of that no-earlier-than-start instant; every other
recognize outcome, and every register outcome, leaves the ledger
unchanged. -/
theorem ledger_discipline_spec (detector : GrayImage → List FaceRect)
    (predict : Model → GrayImage → Int × ℚ) (st : SysState) (name : String)
    (img? : Option ColorImage) (start now : Timestamp)
    (hclock : Timestamp.leb start now = true) :
    (∀ nm c st', recognize_face detector predict st img? now =
        some (.recognized nm c, st') →
      st'.ledger = st.ledger ++ [(nm, formatTimestamp now)] ∧
      Timestamp.leb start now = true) ∧
    (∀ resp st', recognize_face detector predict st img? now = some (resp, st') →
      (∀ nm c, resp ≠ .recognized nm c) → st'.ledger = st.ledger) ∧
    (∀ resp st', register_face detector st name img? now = some (resp, st') →
      st'.ledger = st.ledger) := by
  refine ⟨?_, ?_, ?_⟩
  · intro nm c st' h
    rcases recognize_face_cases detector predict st img? now _ st' h with
      ⟨nm', c', h1, h2⟩ | ⟨hne, -⟩
    · obtain ⟨rfl, rfl⟩ : nm = nm' ∧ c = c' := by
        have := RecognizeResponse.recognized.injEq nm c nm' c' ▸ h1
        simpa using h1
      subst h2
      exact ⟨rfl, hclock⟩
    · exact absurd rfl (hne nm c)
  · intro resp st' h hne
    rcases recognize_face_cases detector predict st img? now resp st' h with
      ⟨nm', c', h1, -⟩ | ⟨-, h2⟩
    · exact absurd h1 (hne nm' c')
    · rw [h2]
  · intro resp st' h
    exact register_face_ledger_frame detector st name img? now resp st' h

theorem ledger_discipline_spec_witness :
    Timestamp.leb tStart tNow = true ∧
    recognize_face detOne predLow stTrained (some testImg) tNow =
      some (.recognized "alice" 100,
        { stTrained with ledger := [("alice", formatTimestamp tNow)] }) ∧
    ({ stTrained with ledger := [("alice", formatTimestamp tNow)] } : SysState).ledger =
      stTrained.ledger ++ [("alice", formatTimestamp tNow)] := by
  have hclock : Timestamp.leb tStart tNow = true := by decide
  have h := (ledger_discipline_spec detOne predLow stTrained "alice"
    (some testImg) tStart tNow hclock).1 "alice" 100
    { stTrained with ledger := [("alice", formatTimestamp tNow)] }
  have hrec : recognize_face detOne predLow stTrained (some testImg) tNow =
      some (.recognized "alice" 100,
        { stTrained with ledger := [("alice", formatTimestamp tNow)] }) := by
    have hlt : (100 : ℚ) < THRESHOLD := by norm_num [THRESHOLD]
    have hget : dictGet [("1", "alice")] (str_of_int 1) "Unknown" = "alice" := by
      rw [str_of_int_one]; rfl
    have hdet : detect_face detOne testImg = some testFace := rfl
    simp [recognize_face, hdet, predLow, load_labels, hlt, hget, mark_attendance,
      stTrained]
  exact ⟨hclock, hrec, (h hrec).1⟩

/-! ## Registry failure tolerance (claim C9) -/

/-- The registry-independent observables of a register outcome: response,
sample corpus, model file, ledger. -/
def regObs (r : Option (RegisterResponse × SysState)) :
    Option (RegisterResponse × Dataset × Option Model × List (String × String)) :=
  r.map fun p => (p.1, p.2.dataset, p.2.modelFile, p.2.ledger)

/-- The registry-independent observables of a recognize outcome. -/
def recObs (r : Option (RecognizeResponse × SysState)) :
    Option (RecognizeResponse × Dataset × Option Model × List (String × String)) :=
  r.map fun p => (p.1, p.2.dataset, p.2.modelFile, p.2.ledger)

/-- C9 (counterexample): loading the registry can fail.  In `load_labels`
the `open()` call sits outside the `try`, so an existing-but-unreadable
`labels.json` raises instead of being treated as empty, and a
registration request that reaches the registry read crashes. -/
theorem load_labels_unreadable_raises :
    load_labels RegistryStore.unreadable = none ∧
    register_face detOne
      { registry := .unreadable, dataset := [], modelFile := none, ledger := [] }
      "alice" (some testImg) tNow = none := by
  exact ⟨rfl, rfl⟩

/-- C9 (amended): a missing registry file, and a corrupt one (readable
but unparseable, caught by the bare `except`), are both treated as an
empty registry on every read path — `register_face` and `recognize_face`
behave observably identically on a corrupt store and on an empty valid
store.  (An existing-but-unreadable store instead raises; see the
counterexample.) -/
theorem load_labels_tolerant_spec :
    load_labels RegistryStore.missing = some [] ∧
    load_labels RegistryStore.corrupt = some [] ∧
    (∀ d, load_labels (RegistryStore.valid d) = some d) ∧
    (∀ detector ds mf lg name img? now,
      regObs (register_face detector ⟨.corrupt, ds, mf, lg⟩ name img? now) =
      regObs (register_face detector ⟨.valid [], ds, mf, lg⟩ name img? now)) ∧
    (∀ detector predict ds mf lg img? now,
      recObs (recognize_face detector predict ⟨.corrupt, ds, mf, lg⟩ img? now) =
      recObs (recognize_face detector predict ⟨.valid [], ds, mf, lg⟩ img? now)) := by
  refine ⟨rfl, rfl, fun d => rfl, ?_, ?_⟩
  · intro detector ds mf lg name img? now
    cases img? with
    | none => rfl
    | some img =>
      cases hdet : detect_face detector img with
      | none => simp [register_face, hdet, regObs]
      | some face =>
        have hres : resolve_or_create [] name = some ("1", [("1", name)], true) := rfl
        simp [register_face, hdet, regObs, load_labels, hres]
  · intro detector predict ds mf lg img? now
    cases img? with
    | none => rfl
    | some img =>
      cases hdet : detect_face detector img with
      | none => simp [recognize_face, hdet, recObs]
      | some face =>
        cases mf with
        | none => simp [recognize_face, hdet, recObs]
        | some model =>
          rcases hp : predict model face with ⟨l, c⟩
          by_cases hc : c < THRESHOLD
          · simp [recognize_face, hdet, hp, hc, recObs, load_labels]
          · simp [recognize_face, hdet, hp, hc, recObs]

end Attendence
